import Mathlib

/-!
# Verification of the BiblioReads monitor core (src/index.ts)

Shallow embedding of the Cloudflare-Worker monitor:
* `withCache`    — KV-backed read-through cache with stale-while-revalidate
                   (src/index.ts lines 10–45),
* `checkInstance` — single-endpoint prober with HEAD→GET fallback and
                   whitelist override (lines 54–85),
* the bounded-concurrency worker loop of `getChecks` (lines 87–104),
* the `/random` route's selection (lines 308–313).

Effects are made explicit: the KV store is passed as state, the producer and
the network fetches are supplied as outcome values, and the prober also
returns the trace of timer/fetch events it performs.
-/

namespace Biblio

/-- An instance record: `{ url, status, note?, error? }` (src/index.ts 3–8). -/
structure Instance where
  url : String
  status : String
  note : Option String := none
  error : Option String := none
  deriving DecidableEq, Repr

/-! ## The KV cache (`withCache`, src/index.ts 10–45)

The KV value stored at a key is `JSON.stringify({data, timestamp})`; we keep
it structured.  The store itself is an association list where `put` conses a
fresh binding (newest binding wins on lookup, which models overwrite). -/

/-- One cached KV value: `{ data, timestamp }`. -/
structure CachedVal (T : Type) where
  data : T
  timestamp : Int
  deriving DecidableEq, Repr

/-- The external KV store, keyed by string. -/
def KVStore (T : Type) : Type := List (String × CachedVal T)

/-- Model of `env.BIBLIOREADS_KV.get(key)`: newest binding for `key`, if any. -/
def kvGet {T : Type} (store : KVStore T) (key : String) : Option (CachedVal T) :=
  (List.lookup key store)

/-- Model of `env.BIBLIOREADS_KV.put(key, value)`: overwrite by shadowing. -/
def kvPut {T : Type} (store : KVStore T) (key : String) (v : CachedVal T) : KVStore T :=
  (key, v) :: store

/-- The staleness threshold used by `withCache`: `24 * 60 * 60 * 1000` ms. -/
def staleAfterMs : Int := 24 * 60 * 60 * 1000

/-- What one call of `withCache` does, observably:
`ret` is what the caller gets (the producer's failure propagates),
`store` is the KV state at the moment the call returns,
`syncCalls` counts synchronous invocations of the producer `fn`,
`bgLaunched` records that a detached background refresh was started. -/
structure WCOut (E T : Type) where
  ret : Except E T
  store : KVStore T
  syncCalls : Nat
  bgLaunched : Bool

/-- Model of `withCache(env, key, fn)` (src/index.ts 10–45).  `now` is `Date.now()`;
`producer` is the outcome `fn()` would deliver if invoked synchronously.
On a hit it computes `ageMs = now - timestamp`; if `ageMs > 24h` it serves
the stale data and launches `fn()` detached (its effect on the store is
`bgRefresh` below); otherwise it serves the data directly.  On a miss it
awaits `fn()`, stores `{data, timestamp: now}` on success and propagates
the failure without writing on error. -/
def withCache {E T : Type} (store : KVStore T) (key : String) (now : Int)
    (producer : Except E T) : WCOut E T :=
  match kvGet store key with
  | some cached =>
    let ageMs := now - cached.timestamp
    if ageMs > staleAfterMs then
      { ret := Except.ok cached.data, store := store, syncCalls := 0, bgLaunched := true }
    else
      { ret := Except.ok cached.data, store := store, syncCalls := 0, bgLaunched := false }
  | none =>
    match producer with
    | Except.ok fresh =>
      { ret := Except.ok fresh, store := kvPut store key ⟨fresh, now⟩,
        syncCalls := 1, bgLaunched := false }
    | Except.error e =>
      { ret := Except.error e, store := store, syncCalls := 1, bgLaunched := false }

/-- Effect of the detached background refresh launched on a stale hit
(src/index.ts 23–31): `bgResult` is the outcome of the background `fn()`,
`bgNow` the `Date.now()` of its completion.  Returns the resulting store and
whether the failure was reported to `console.error` (the only failure
channel; nothing reaches the original caller). -/
def bgRefresh {E T : Type} (store : KVStore T) (key : String)
    (bgResult : Except E T) (bgNow : Int) : KVStore T × Bool :=
  match bgResult with
  | Except.ok fresh => (kvPut store key ⟨fresh, bgNow⟩, false)
  | Except.error _ => (store, true)

end Biblio

namespace Biblio

/-- C1: a miss invokes the producer exactly once and returns its value; a
subsequent call at age ≤ 24h returns the same value with no further
producer invocation (neither synchronous nor background). -/
theorem withCache_miss_then_fresh_hit {E T : Type} (store : KVStore T) (key : String)
    (t0 t1 : Int) (v : T) (p2 : Except E T)
    (hmiss : kvGet store key = none) (hage : t1 - t0 ≤ staleAfterMs) :
    (withCache store key t0 (Except.ok v : Except E T)).ret = Except.ok v ∧
    (withCache store key t0 (Except.ok v : Except E T)).syncCalls = 1 ∧
    (withCache store key t0 (Except.ok v : Except E T)).bgLaunched = false ∧
    (withCache (withCache store key t0 (Except.ok v : Except E T)).store key t1 p2).ret
      = Except.ok v ∧
    (withCache (withCache store key t0 (Except.ok v : Except E T)).store key t1 p2).syncCalls
      = 0 ∧
    (withCache (withCache store key t0 (Except.ok v : Except E T)).store key t1 p2).bgLaunched
      = false := by
  have h1 : withCache store key t0 (Except.ok v : Except E T) =
      { ret := Except.ok v, store := kvPut store key ⟨v, t0⟩,
        syncCalls := 1, bgLaunched := false } := by
    unfold withCache
    rw [hmiss]
  have hget : kvGet (kvPut store key ⟨v, t0⟩) key = some ⟨v, t0⟩ := by
    simp [kvGet, kvPut, List.lookup]
  have hnot : ¬ (t1 - t0 > staleAfterMs) := not_lt.mpr hage
  have h2 : withCache (kvPut store key ⟨v, t0⟩) key t1 p2 =
      { ret := Except.ok v, store := kvPut store key ⟨v, t0⟩,
        syncCalls := 0, bgLaunched := false } := by
    unfold withCache
    rw [hget]
    simp [hnot]
  rw [h1]
  exact ⟨rfl, rfl, rfl, by simp [h2], by simp [h2], by simp [h2]⟩

/-- Witness for C1: empty store, key `"instances:raw"`, first call at time 0
with producer value 5, second call at time 100 with a producer that would
fail if it were ever invoked. -/
theorem withCache_miss_then_fresh_hit_witness :
    kvGet ([] : KVStore Nat) "instances:raw" = none ∧
    (100 : Int) - 0 ≤ staleAfterMs ∧
    (withCache ([] : KVStore Nat) "instances:raw" 0
      (Except.ok 5 : Except String Nat)).ret = Except.ok 5 ∧
    (withCache (withCache ([] : KVStore Nat) "instances:raw" 0
      (Except.ok 5 : Except String Nat)).store "instances:raw" 100
      (Except.error "boom" : Except String Nat)).ret = Except.ok 5 ∧
    (withCache (withCache ([] : KVStore Nat) "instances:raw" 0
      (Except.ok 5 : Except String Nat)).store "instances:raw" 100
      (Except.error "boom" : Except String Nat)).syncCalls = 0 :=
  have h := withCache_miss_then_fresh_hit ([] : KVStore Nat) "instances:raw" 0 100 5
    (Except.error "boom") rfl (by decide)
  ⟨rfl, by decide, h.1, h.2.2.2.1, h.2.2.2.2.1⟩

/-- C2: a hit whose age exceeds 24h returns the old cached value immediately
(whatever the producer would have done), performs no synchronous producer
call, leaves the store untouched at return time, and launches a detached
refresh; the background refresh on success overwrites the entry with the
fresh value and the new timestamp, and on failure leaves the store unchanged,
reporting only to the logging side-channel. -/
theorem withCache_stale_hit_background_refresh {E T : Type} (store : KVStore T)
    (key : String) (now bgNow : Int) (c : CachedVal T) (p : Except E T)
    (fresh : T) (e : E)
    (hhit : kvGet store key = some c) (hstale : now - c.timestamp > staleAfterMs) :
    (withCache store key now p).ret = Except.ok c.data ∧
    (withCache store key now p).syncCalls = 0 ∧
    (withCache store key now p).bgLaunched = true ∧
    (withCache store key now p).store = store ∧
    bgRefresh store key (Except.ok fresh : Except E T) bgNow
      = (kvPut store key ⟨fresh, bgNow⟩, false) ∧
    kvGet (bgRefresh store key (Except.ok fresh : Except E T) bgNow).1 key
      = some ⟨fresh, bgNow⟩ ∧
    bgRefresh store key (Except.error e : Except E T) bgNow = (store, true) := by
  have h1 : withCache store key now p =
      { ret := Except.ok c.data, store := store, syncCalls := 0, bgLaunched := true } := by
    unfold withCache
    rw [hhit]
    simp [hstale]
  refine ⟨by rw [h1], by rw [h1], by rw [h1], by rw [h1], rfl, ?_, rfl⟩
  simp [bgRefresh, kvGet, kvPut, List.lookup]

/-- Witness for C2: a one-entry store holding 7 stored at time 0, read at
time 24h + 1ms; the background refresh produces 9 at time `bgNow = 10`. -/
theorem withCache_stale_hit_background_refresh_witness :
    kvGet ([("instances:all", ⟨7, 0⟩)] : KVStore Nat) "instances:all" = some ⟨7, 0⟩ ∧
    (staleAfterMs + 1 : Int) - 0 > staleAfterMs ∧
    (withCache ([("instances:all", ⟨7, 0⟩)] : KVStore Nat) "instances:all"
      (staleAfterMs + 1) (Except.error "slow" : Except String Nat)).ret = Except.ok 7 ∧
    (withCache ([("instances:all", ⟨7, 0⟩)] : KVStore Nat) "instances:all"
      (staleAfterMs + 1) (Except.error "slow" : Except String Nat)).bgLaunched = true ∧
    kvGet (bgRefresh ([("instances:all", ⟨7, 0⟩)] : KVStore Nat) "instances:all"
      (Except.ok 9 : Except String Nat) 10).1 "instances:all" = some ⟨9, 10⟩ ∧
    bgRefresh ([("instances:all", ⟨7, 0⟩)] : KVStore Nat) "instances:all"
      (Except.error "bad" : Except String Nat) 10
      = ([("instances:all", ⟨7, 0⟩)], true) :=
  have h := withCache_stale_hit_background_refresh
    ([("instances:all", ⟨7, 0⟩)] : KVStore Nat) "instances:all"
    (staleAfterMs + 1) 10 ⟨7, 0⟩ (Except.error "slow") 9 "bad" rfl (by decide)
  ⟨rfl, by decide, h.1, h.2.2.1, h.2.2.2.2.2.1, h.2.2.2.2.2.2⟩

/-- C3: on a miss whose producer fails, the failure is propagated to the
caller as-is (no fallback value), and the store is left entirely unchanged;
the (single) producer invocation was synchronous and nothing was launched
in the background. -/
theorem withCache_miss_producer_failure {E T : Type} (store : KVStore T)
    (key : String) (now : Int) (e : E) (hmiss : kvGet store key = none) :
    (withCache store key now (Except.error e : Except E T)).ret = Except.error e ∧
    (withCache store key now (Except.error e : Except E T)).store = store ∧
    (withCache store key now (Except.error e : Except E T)).syncCalls = 1 ∧
    (withCache store key now (Except.error e : Except E T)).bgLaunched = false := by
  have h1 : withCache store key now (Except.error e : Except E T) =
      { ret := Except.error e, store := store, syncCalls := 1, bgLaunched := false } := by
    unfold withCache
    rw [hmiss]
  exact ⟨by rw [h1], by rw [h1], by rw [h1], by rw [h1]⟩

/-- Witness for C3: empty store, failing producer. -/
theorem withCache_miss_producer_failure_witness :
    kvGet ([] : KVStore Nat) "api:check" = none ∧
    (withCache ([] : KVStore Nat) "api:check" 0
      (Except.error "fetch failed" : Except String Nat)).ret
      = Except.error "fetch failed" ∧
    (withCache ([] : KVStore Nat) "api:check" 0
      (Except.error "fetch failed" : Except String Nat)).store = [] :=
  have h := withCache_miss_producer_failure ([] : KVStore Nat) "api:check" 0
    "fetch failed" rfl
  ⟨rfl, h.1, h.2.1⟩

/-! ## The prober (`checkInstance`, src/index.ts 54–85)

The two `fetch` calls are supplied as outcome values (`head` for the HEAD
request, `get` for the conditional GET); a fetch either yields a response
with an HTTP status or throws with an error message (timeout/abort included,
via the shared `AbortController`).  Besides the resulting instance the
embedding returns the trace of timer and request events the code performs,
with the id of the `AbortController` whose signal each request uses — the
code creates a single controller (id 0) and arms a single `setTimeout`
before the HEAD request. -/

/-- Outcome of one `fetch`: a response with this HTTP status, or a thrown
error (timeout, network failure, abort) with `err.message`. -/
inductive FetchOutcome where
  | resp (status : Nat)
  | thrown (msg : String)
  deriving DecidableEq, Repr

/-- Predicate `Response.ok` of the fetch API: status in the range 200–299. -/
def respOk (status : Nat) : Bool :=
  200 ≤ status && status ≤ 299

/-- JS `String.prototype.split` with a one-character separator, over the
character list (structural recursion, so it evaluates in the kernel).
`jsSplit ',' "a,b".data = ["a", "b"]`, `jsSplit ',' "".data = [""]`. -/
def jsSplit (sep : Char) : List Char → List String
  | [] => [""]
  | c :: cs =>
    match jsSplit sep cs with
    | [] => if c = sep then [""] else [String.mk [c]]
    | r :: rs =>
      if c = sep then "" :: r :: rs
      else String.mk (c :: r.data) :: rs

/-- Model of `env.WHITELIST?.split(",").includes(url)`. -/
def whitelistHas (whitelist : Option String) (url : String) : Bool :=
  match whitelist with
  | none => false
  | some s => (jsSplit ',' s.data).contains url

/-- Events `checkInstance` performs, in order.  `timerSet c ms` is
`setTimeout(() => c.abort(), ms)` for controller `c`; `request c m u` is
`fetch(u, { method: m, signal: c.signal })`; `timerCleared` is
`clearTimeout`. -/
inductive Ev where
  | timerSet (controller : Nat) (ms : Nat)
  | request (controller : Nat) (method : String) (url : String)
  | timerCleared
  deriving DecidableEq, Repr

/-- Classification of the final response (src/index.ts 74–78): `ok` or 403
is up; otherwise whitelisted URLs are up with a note, the rest get
`error (<status>)`. -/
def classifyResp (inst : Instance) (whitelist : Option String) (status : Nat) : Instance :=
  if respOk status || status == 403 then { inst with status := "up" }
  else if whitelistHas whitelist inst.url then
    { inst with status := "up", note := some "whitelisted" }
  else { inst with status := "error (" ++ toString status ++ ")" }

/-- The `catch` branch (src/index.ts 79–84): whitelisted URLs are up with a
note, the rest are down with the error message. -/
def classifyThrown (inst : Instance) (whitelist : Option String) (msg : String) : Instance :=
  if whitelistHas whitelist inst.url then
    { inst with status := "up", note := some "whitelisted (fetch failed)" }
  else { inst with status := "down", error := some msg }

/-- Model of `checkInstance(instance, env)` (src/index.ts 54–85).  One controller
(id 0) is created and armed with one `setTimeout(timeoutMs)`; a HEAD request
is sent with its signal; on a 403/405 HEAD response a GET to the same URL is
sent with the *same* signal (the timer is not re-armed); the last outcome is
classified.  Returns the instance and the event trace. -/
def checkInstance (inst : Instance) (whitelist : Option String) (timeoutMs : Nat)
    (head get : FetchOutcome) : Instance × List Ev :=
  let pre := [Ev.timerSet 0 timeoutMs, Ev.request 0 "HEAD" inst.url]
  match head with
  | FetchOutcome.thrown m => (classifyThrown inst whitelist m, pre ++ [Ev.timerCleared])
  | FetchOutcome.resp s =>
    if s == 403 || s == 405 then
      match get with
      | FetchOutcome.thrown m =>
        (classifyThrown inst whitelist m,
         pre ++ [Ev.request 0 "GET" inst.url, Ev.timerCleared])
      | FetchOutcome.resp s2 =>
        (classifyResp inst whitelist s2,
         pre ++ [Ev.request 0 "GET" inst.url, Ev.timerCleared])
    else (classifyResp inst whitelist s, pre ++ [Ev.timerCleared])

/-- The response/failure that ends up being classified: the GET outcome when
the HEAD response had status 403/405 (the code overwrites `ping`), the HEAD
outcome otherwise. -/
def finalOutcome (head get : FetchOutcome) : FetchOutcome :=
  match head with
  | FetchOutcome.resp s => if s == 403 || s == 405 then get else FetchOutcome.resp s
  | FetchOutcome.thrown m => FetchOutcome.thrown m

/-- The instance returned by `checkInstance` is exactly the classification
of `finalOutcome` (helper shared by the claim theorems). -/
theorem checkInstance_fst_eq (inst : Instance) (whitelist : Option String)
    (timeoutMs : Nat) (head get : FetchOutcome) :
    (checkInstance inst whitelist timeoutMs head get).1 =
      (match finalOutcome head get with
       | FetchOutcome.resp s => classifyResp inst whitelist s
       | FetchOutcome.thrown m => classifyThrown inst whitelist m) := by
  cases head with
  | thrown m => rfl
  | resp s =>
    by_cases h : (s == 403 || s == 405) = true
    · cases get with
      | thrown m => simp [checkInstance, finalOutcome, h]
      | resp s2 => simp [checkInstance, finalOutcome, h]
    · simp [checkInstance, finalOutcome, h]

/-- A status of the form `error (<status>)` is never the string `"down"`
(their lengths differ). -/
theorem errorStatus_ne_down (s : String) : "error (" ++ s ++ ")" ≠ "down" := by
  intro h
  have hlen := congrArg String.length h
  rw [String.length_append, String.length_append] at hlen
  have h7 : "error (".length = 7 := rfl
  have h1 : ")".length = 1 := rfl
  have h4 : "down".length = 4 := rfl
  rw [h7, h1, h4] at hlen
  omega

/-- C4: for a non-whitelisted endpoint, the final response being `ok` or 403
gives status `up`; a final response that is neither gives
`error (<status>)`; a failed request gives status `down` with the failure
message in `error`. -/
theorem checkInstance_classification (inst : Instance) (whitelist : Option String)
    (timeoutMs : Nat) (head get : FetchOutcome)
    (hw : whitelistHas whitelist inst.url = false) :
    (∀ s, finalOutcome head get = FetchOutcome.resp s → (respOk s = true ∨ s = 403) →
      (checkInstance inst whitelist timeoutMs head get).1.status = "up") ∧
    (∀ s, finalOutcome head get = FetchOutcome.resp s → respOk s = false → s ≠ 403 →
      (checkInstance inst whitelist timeoutMs head get).1.status
        = "error (" ++ toString s ++ ")") ∧
    (∀ m, finalOutcome head get = FetchOutcome.thrown m →
      (checkInstance inst whitelist timeoutMs head get).1.status = "down" ∧
      (checkInstance inst whitelist timeoutMs head get).1.error = some m) := by
  rw [checkInstance_fst_eq]
  refine ⟨?_, ?_, ?_⟩
  · intro s hf hok
    rw [hf]
    rcases hok with h | h
    · simp [classifyResp, h]
    · simp [classifyResp, h]
  · intro s hf hnok h403
    rw [hf]
    simp [classifyResp, hnok, h403, hw]
  · intro m hf
    rw [hf]
    simp [classifyThrown, hw]

/-- Witness for C4: non-whitelisted endpoint; a 500 final response yields
`error (500)`, a thrown fetch yields `down` with the message. -/
theorem checkInstance_classification_witness :
    whitelistHas none "https://a.example" = false ∧
    (checkInstance ⟨"https://a.example", "", none, none⟩ none 2000
      (FetchOutcome.resp 500) (FetchOutcome.resp 0)).1.status = "error (500)" ∧
    (checkInstance ⟨"https://a.example", "", none, none⟩ none 2000
      (FetchOutcome.thrown "timeout") (FetchOutcome.resp 0)).1.status = "down" :=
  have h1 := checkInstance_classification ⟨"https://a.example", "", none, none⟩ none 2000
    (FetchOutcome.resp 500) (FetchOutcome.resp 0) rfl
  have h2 := checkInstance_classification ⟨"https://a.example", "", none, none⟩ none 2000
    (FetchOutcome.thrown "timeout") (FetchOutcome.resp 0) rfl
  ⟨rfl, h1.2.1 500 rfl rfl (by decide), (h2.2.2 "timeout" rfl).1⟩

/-- C6: a whitelisted endpoint ends up `up` on every probe outcome; the note
is `"whitelisted"` when a non-ok/non-403 response was received and
`"whitelisted (fetch failed)"` when the request failed. -/
theorem checkInstance_whitelist_override (inst : Instance) (whitelist : Option String)
    (timeoutMs : Nat) (head get : FetchOutcome)
    (hw : whitelistHas whitelist inst.url = true) :
    (checkInstance inst whitelist timeoutMs head get).1.status = "up" ∧
    (∀ s, finalOutcome head get = FetchOutcome.resp s → respOk s = false → s ≠ 403 →
      (checkInstance inst whitelist timeoutMs head get).1.note = some "whitelisted") ∧
    (∀ m, finalOutcome head get = FetchOutcome.thrown m →
      (checkInstance inst whitelist timeoutMs head get).1.note
        = some "whitelisted (fetch failed)") := by
  rw [checkInstance_fst_eq]
  refine ⟨?_, ?_, ?_⟩
  · cases hf : finalOutcome head get with
    | resp s =>
      by_cases hok : (respOk s || s == 403) = true
      · simp [classifyResp, hok]
      · simp [classifyResp, hok, hw]
    | thrown m => simp [classifyThrown, hw]
  · intro s hf hnok h403
    rw [hf]
    simp [classifyResp, hnok, h403, hw]
  · intro m hf
    rw [hf]
    simp [classifyThrown, hw]

/-- Witness for C6: whitelist `"https://w.example,https://x.example"`
contains the endpoint; a 500 response and a total network failure both
yield `up`, with the respective notes. -/
theorem checkInstance_whitelist_override_witness :
    whitelistHas (some "https://w.example,https://x.example") "https://w.example" = true ∧
    (checkInstance ⟨"https://w.example", "", none, none⟩
      (some "https://w.example,https://x.example") 2000
      (FetchOutcome.resp 500) (FetchOutcome.resp 0)).1.status = "up" ∧
    (checkInstance ⟨"https://w.example", "", none, none⟩
      (some "https://w.example,https://x.example") 2000
      (FetchOutcome.resp 500) (FetchOutcome.resp 0)).1.note = some "whitelisted" ∧
    (checkInstance ⟨"https://w.example", "", none, none⟩
      (some "https://w.example,https://x.example") 2000
      (FetchOutcome.thrown "connection refused") (FetchOutcome.resp 0)).1.status = "up" ∧
    (checkInstance ⟨"https://w.example", "", none, none⟩
      (some "https://w.example,https://x.example") 2000
      (FetchOutcome.thrown "connection refused") (FetchOutcome.resp 0)).1.note
      = some "whitelisted (fetch failed)" :=
  have h1 := checkInstance_whitelist_override ⟨"https://w.example", "", none, none⟩
    (some "https://w.example,https://x.example") 2000
    (FetchOutcome.resp 500) (FetchOutcome.resp 0) (by decide)
  have h2 := checkInstance_whitelist_override ⟨"https://w.example", "", none, none⟩
    (some "https://w.example,https://x.example") 2000
    (FetchOutcome.thrown "connection refused") (FetchOutcome.resp 0) (by decide)
  ⟨by decide, h1.1, h1.2.1 500 rfl (by decide) (by decide), h2.1,
   h2.2.2 "connection refused" rfl⟩

/-- C7: `checkInstance` is total (a Lean `def`), and on every input the
returned status is `up`, `down`, or `error (<code>)` where `<code>` is the
HTTP status of the final response; `down` occurs only when the request
failed at the transport level (the fetch threw). -/
theorem checkInstance_total_status (inst : Instance) (whitelist : Option String)
    (timeoutMs : Nat) (head get : FetchOutcome) :
    ((checkInstance inst whitelist timeoutMs head get).1.status = "up" ∨
     (checkInstance inst whitelist timeoutMs head get).1.status = "down" ∨
     (∃ c, finalOutcome head get = FetchOutcome.resp c ∧
       (checkInstance inst whitelist timeoutMs head get).1.status
         = "error (" ++ toString c ++ ")")) ∧
    ((checkInstance inst whitelist timeoutMs head get).1.status = "down" →
      ∃ m, finalOutcome head get = FetchOutcome.thrown m) := by
  rw [checkInstance_fst_eq]
  cases hf : finalOutcome head get with
  | resp s =>
    constructor
    · by_cases hok : (respOk s || s == 403) = true
      · exact Or.inl (by simp [classifyResp, hok])
      · by_cases hwl : whitelistHas whitelist inst.url = true
        · exact Or.inl (by simp [classifyResp, hok, hwl])
        · refine Or.inr (Or.inr ⟨s, rfl, ?_⟩)
          simp [classifyResp, hok, hwl]
    · intro hdown
      exfalso
      by_cases hok : (respOk s || s == 403) = true
      · simp [classifyResp, hok] at hdown
      · by_cases hwl : whitelistHas whitelist inst.url = true
        · simp [classifyResp, hok, hwl] at hdown
        · simp [classifyResp, hok, hwl] at hdown
          exact errorStatus_ne_down (toString s) hdown
  | thrown m =>
    constructor
    · by_cases hwl : whitelistHas whitelist inst.url = true
      · exact Or.inl (by simp [classifyThrown, hwl])
      · exact Or.inr (Or.inl (by simp [classifyThrown, hwl]))
    · intro _
      exact ⟨m, rfl⟩

/-- Recognizer for timer-arming (`setTimeout`) events. -/
def Ev.isTimerSet : Ev → Bool
  | Ev.timerSet _ _ => true
  | _ => false

/-- C5: a GET is issued iff the HEAD response status is 403 or 405; the
trace arms exactly one timer (controller 0, armed before the HEAD and never
re-armed for the GET), every request—HEAD and GET alike—goes to the
endpoint's URL with controller 0's signal, and a 403/405 HEAD answered 200
by the GET classifies as `up`. -/
theorem checkInstance_get_fallback_shares_deadline (inst : Instance)
    (whitelist : Option String) (timeoutMs : Nat) (head get : FetchOutcome) :
    (Ev.request 0 "GET" inst.url ∈ (checkInstance inst whitelist timeoutMs head get).2 ↔
      head = FetchOutcome.resp 403 ∨ head = FetchOutcome.resp 405) ∧
    ((checkInstance inst whitelist timeoutMs head get).2.countP Ev.isTimerSet = 1) ∧
    ((checkInstance inst whitelist timeoutMs head get).2.head?
      = some (Ev.timerSet 0 timeoutMs)) ∧
    ((checkInstance inst whitelist timeoutMs head get).2[1]?
      = some (Ev.request 0 "HEAD" inst.url)) ∧
    (∀ c m u, Ev.request c m u ∈ (checkInstance inst whitelist timeoutMs head get).2 →
      c = 0 ∧ u = inst.url) ∧
    (∀ s, head = FetchOutcome.resp s → (s = 403 ∨ s = 405) →
      get = FetchOutcome.resp 200 →
      (checkInstance inst whitelist timeoutMs head get).1.status = "up") := by
  cases head with
  | thrown m =>
    refine ⟨by simp [checkInstance], rfl, rfl, rfl, ?_, ?_⟩
    · intro c m' u hmem
      simp [checkInstance] at hmem
      exact ⟨hmem.1, hmem.2.2⟩
    · intro s hs
      exact absurd hs (by simp)
  | resp s =>
    by_cases h : (s == 403 || s == 405) = true
    · have hs : s = 403 ∨ s = 405 := by simpa using h
      cases get with
      | resp s2 =>
        refine ⟨?_, ?_, ?_, ?_, ?_, ?_⟩
        · simp [checkInstance, h]
          exact hs
        · simp [checkInstance, h, List.countP_cons, Ev.isTimerSet]
        · simp [checkInstance, h]
        · simp [checkInstance, h]
        · intro c m' u hmem
          simp [checkInstance, h] at hmem
          rcases hmem with ⟨hc, _, hu⟩ | ⟨hc, _, hu⟩ <;> exact ⟨hc, hu⟩
        · intro s' _ _ h200
          have hs2 : s2 = 200 := by
            injection h200
          subst hs2
          simp [checkInstance, h, classifyResp, respOk]
      | thrown m =>
        refine ⟨?_, ?_, ?_, ?_, ?_, ?_⟩
        · simp [checkInstance, h]
          exact hs
        · simp [checkInstance, h, List.countP_cons, Ev.isTimerSet]
        · simp [checkInstance, h]
        · simp [checkInstance, h]
        · intro c m' u hmem
          simp [checkInstance, h] at hmem
          rcases hmem with ⟨hc, _, hu⟩ | ⟨hc, _, hu⟩ <;> exact ⟨hc, hu⟩
        · intro s' _ _ h200
          exact absurd h200 (by simp)
    · have hs : ¬ (s = 403 ∨ s = 405) := by
        intro hor
        apply h
        rcases hor with h' | h' <;> simp [h']
      refine ⟨?_, ?_, ?_, ?_, ?_, ?_⟩
      · constructor
        · intro hmem
          simp [checkInstance, h] at hmem
        · intro hor
          exfalso
          apply hs
          rcases hor with h' | h' <;> [left; right] <;> injection h'
      · simp [checkInstance, h, List.countP_cons, Ev.isTimerSet]
      · simp [checkInstance, h]
      · simp [checkInstance, h]
      · intro c m' u hmem
        simp [checkInstance, h] at hmem
        exact ⟨hmem.1, hmem.2.2⟩
      · intro s' hs' hor _
        have : s' = s := by injection hs' with h'; exact h'.symm
        subst this
        exact absurd hor hs

/-- Witness for C5: a 405 HEAD response followed by a 200 GET on a concrete
endpoint — the GET appears in the trace and the final status is `up`. -/
theorem checkInstance_get_fallback_shares_deadline_witness :
    Ev.request 0 "GET" "https://a.example" ∈
      (checkInstance ⟨"https://a.example", "", none, none⟩ none 2000
        (FetchOutcome.resp 405) (FetchOutcome.resp 200)).2 ∧
    (checkInstance ⟨"https://a.example", "", none, none⟩ none 2000
      (FetchOutcome.resp 405) (FetchOutcome.resp 200)).1.status = "up" :=
  have h := checkInstance_get_fallback_shares_deadline
    ⟨"https://a.example", "", none, none⟩ none 2000
    (FetchOutcome.resp 405) (FetchOutcome.resp 200)
  ⟨h.1.mpr (Or.inr rfl), h.2.2.2.2.2 405 rfl (Or.inr rfl) rfl⟩

/-! ## The worker loop of `getChecks` (src/index.ts 87–104)

`getChecks` seeds `queue = [...instances]`, starts
`Array(limit).fill(null).map(async () => while (queue.length)
results.push(await checkInstance(queue.shift())))` and awaits them all.
Each worker is a state machine: at the loop head (`idle`) it checks
`queue.length` and, in the same synchronous slice, `shift`s the head
(`waiting x`) — or, seeing the queue empty, finishes (`done`); when its
probe resolves it pushes the result and is back at the loop head.  Workers
are interleaved arbitrarily between `await`s; as worker identity never
matters we keep the pool as a multiset.  The probe is abstracted by an
arbitrary function `probe` (in the code, `checkInstance · env`). -/

/-- One worker of the `getChecks` pool. -/
inductive WState where
  | idle
  | waiting (inst : Instance)
  | done
  deriving DecidableEq, Repr

/-- The shared state of one `getChecks` scan: the work queue, the shared
results array, and the worker pool. -/
structure ScanState where
  queue : List Instance
  results : List Instance
  workers : Multiset WState
  deriving DecidableEq

/-- One scheduler step of the scan (src/index.ts 94–100): an idle worker
sees a non-empty queue and shifts its head; a waiting worker's probe
resolves and it pushes the result; an idle worker sees the empty queue and
its async function returns. -/
inductive ScanStep (probe : Instance → Instance) : ScanState → ScanState → Prop
  | pop (x : Instance) (q res : List Instance) (ws : Multiset WState) :
      ScanStep probe ⟨x :: q, res, WState.idle ::ₘ ws⟩
        ⟨q, res, WState.waiting x ::ₘ ws⟩
  | push (x : Instance) (q res : List Instance) (ws : Multiset WState) :
      ScanStep probe ⟨q, res, WState.waiting x ::ₘ ws⟩
        ⟨q, res ++ [probe x], WState.idle ::ₘ ws⟩
  | finish (res : List Instance) (ws : Multiset WState) :
      ScanStep probe ⟨[], res, WState.idle ::ₘ ws⟩ ⟨[], res, WState.done ::ₘ ws⟩

/-- The state of a scan right after `Promise.all(workers)` is set up:
the full queue, no results, `limit` idle workers. -/
def scanInit (endpoints : List Instance) (limit : Nat) : ScanState :=
  ⟨endpoints, [], Multiset.replicate limit WState.idle⟩

/-- Reachability under scan steps. -/
def ScanReach (probe : Instance → Instance) : ScanState → ScanState → Prop :=
  Relation.ReflTransGen (ScanStep probe)

/-- Predicate: `Promise.all` has resolved — every worker's async function returned. -/
def AllDone (ws : Multiset WState) : Prop :=
  ∀ w ∈ ws, w = WState.done

/-- The endpoint a waiting worker has shifted but not yet pushed. -/
def WState.pend : WState → Multiset Instance
  | WState.waiting x => {x}
  | _ => 0

/-- All endpoints currently held by waiting workers. -/
def pendingOf (ws : Multiset WState) : Multiset Instance :=
  (ws.map WState.pend).sum

/-- Scan invariant: queue ∪ in-flight ∪ results accounts, probed, for
exactly the initial endpoints; and while the queue is non-empty some worker
has not finished. -/
def ScanInv (probe : Instance → Instance) (endpoints : List Instance)
    (s : ScanState) : Prop :=
  ((s.queue.map probe : Multiset Instance) + (pendingOf s.workers).map probe
      + (s.results : Multiset Instance) = (endpoints.map probe : Multiset Instance)) ∧
  (s.queue = [] ∨ ∃ w ∈ s.workers, w ≠ WState.done)

theorem pendingOf_cons (w : WState) (ws : Multiset WState) :
    pendingOf (w ::ₘ ws) = WState.pend w + pendingOf ws := by
  simp [pendingOf]

theorem pendingOf_add (a b : Multiset WState) :
    pendingOf (a + b) = pendingOf a + pendingOf b := by
  simp [pendingOf]

theorem pendingOf_singleton (w : WState) : pendingOf {w} = WState.pend w := by
  simp [pendingOf]

/-- Each scan step preserves the invariant. -/
theorem scanStep_inv (probe : Instance → Instance) (endpoints : List Instance)
    (s s' : ScanState) (hstep : ScanStep probe s s')
    (hinv : ScanInv probe endpoints s) : ScanInv probe endpoints s' :=
  match hstep with
  | ScanStep.pop x q res ws => by
    obtain ⟨hsum, _⟩ := hinv
    constructor
    · rw [← hsum]
      simp only [pendingOf_cons, pendingOf_add, pendingOf_singleton, WState.pend,
        List.map_cons, Multiset.map_add, Multiset.map_singleton, Multiset.map_zero,
        zero_add, add_zero, ← Multiset.cons_coe, ← Multiset.singleton_add]
      abel
    · right
      exact ⟨WState.waiting x, Multiset.mem_cons_self _ _, by simp⟩
  | ScanStep.push x q res ws => by
    obtain ⟨hsum, hq⟩ := hinv
    constructor
    · rw [← hsum]
      simp only [pendingOf_cons, pendingOf_add, pendingOf_singleton, WState.pend,
        Multiset.map_add, Multiset.map_singleton, Multiset.map_zero, zero_add,
        add_zero, List.map_append, List.map_singleton, ← Multiset.coe_add,
        Multiset.coe_singleton, ← Multiset.singleton_add]
      abel
    · rcases hq with h | _
      · exact Or.inl h
      · right
        exact ⟨WState.idle, Multiset.mem_cons_self _ _, by simp⟩
  | ScanStep.finish res ws => by
    obtain ⟨hsum, _⟩ := hinv
    constructor
    · rw [← hsum]
      simp [pendingOf_cons, WState.pend]
    · exact Or.inl rfl

/-- The invariant holds initially when at least one worker starts. -/
theorem scanInit_inv (probe : Instance → Instance) (endpoints : List Instance)
    (limit : Nat) (hl : 1 ≤ limit) :
    ScanInv probe endpoints (scanInit endpoints limit) := by
  constructor
  · simp [scanInit, pendingOf, Multiset.map_replicate, WState.pend,
      Multiset.sum_replicate]
  · right
    refine ⟨WState.idle, ?_, by simp⟩
    simp only [scanInit, Multiset.mem_replicate]
    exact ⟨by omega, trivial⟩

/-- The invariant holds of every reachable state. -/
theorem scanReach_inv (probe : Instance → Instance) (endpoints : List Instance)
    (limit : Nat) (hl : 1 ≤ limit) (s : ScanState)
    (hreach : ScanReach probe (scanInit endpoints limit) s) :
    ScanInv probe endpoints s := by
  induction hreach with
  | refl => exact scanInit_inv probe endpoints limit hl
  | tail _ hstep ih => exact scanStep_inv probe endpoints _ _ hstep ih

/-- Once every worker has returned, no endpoint is in flight. -/
theorem pendingOf_eq_zero (ws : Multiset WState) (h : AllDone ws) :
    pendingOf ws = 0 := by
  apply Multiset.sum_eq_zero
  intro x hx
  obtain ⟨w, hw, rfl⟩ := Multiset.mem_map.mp hx
  rw [h w hw]
  rfl

/-- In a reachable state where `Promise.all` has resolved, the results are
exactly the probes of the initial endpoints (as a multiset), hence exactly
as many as there were endpoints. -/
theorem scan_terminal_results (probe : Instance → Instance) (endpoints : List Instance)
    (limit : Nat) (hl : 1 ≤ limit) (s : ScanState)
    (hreach : ScanReach probe (scanInit endpoints limit) s)
    (hdone : AllDone s.workers) :
    (s.results : Multiset Instance) = (endpoints.map probe : Multiset Instance) ∧
    s.results.length = endpoints.length := by
  have hinv := scanReach_inv probe endpoints limit hl s hreach
  have hq : s.queue = [] := by
    rcases hinv.2 with h | ⟨w, hw, hne⟩
    · exact h
    · exact absurd (hdone w hw) hne
  have hp : pendingOf s.workers = 0 := pendingOf_eq_zero s.workers hdone
  have hsum := hinv.1
  rw [hq, hp] at hsum
  simp only [List.map_nil, Multiset.coe_nil, Multiset.map_zero, zero_add,
    add_zero] at hsum
  refine ⟨hsum, ?_⟩
  have hcard := congrArg Multiset.card hsum
  simpa using hcard

/-- Worker count is preserved by every step. -/
theorem scanStep_card (probe : Instance → Instance) (s s' : ScanState)
    (h : ScanStep probe s s') : s'.workers.card = s.workers.card := by
  cases h <;> simp

/-- Worker count is preserved along every execution. -/
theorem scanReach_card (probe : Instance → Instance) (s s' : ScanState)
    (h : ScanReach probe s s') : s'.workers.card = s.workers.card := by
  induction h with
  | refl => rfl
  | tail _ hstep ih => rw [scanStep_card probe _ _ hstep, ih]

/-- C8: for every endpoint list and every worker count ≥ 1 (which includes
every `concurrencyLimit ∈ [1, N]`, and `N = 0`), once `Promise.all`
resolves, the results array holds exactly N entries, and as a multiset it is
exactly the probe of each input endpoint once — each endpoint was shifted
off the queue exactly once and probed exactly once. -/
theorem getChecks_scan_cardinality (probe : Instance → Instance)
    (endpoints : List Instance) (limit : Nat) (hl : 1 ≤ limit) (s : ScanState)
    (hreach : ScanReach probe (scanInit endpoints limit) s)
    (hdone : AllDone s.workers) :
    s.results.length = endpoints.length ∧
    (s.results : Multiset Instance) = (endpoints.map probe : Multiset Instance) :=
  have h := scan_terminal_results probe endpoints limit hl s hreach hdone
  ⟨h.2, h.1⟩

/-- Witness for C8: one worker scans the one-element queue `[e]`:
pop, push, exit — the terminal state has exactly one result, `probe e`. -/
theorem getChecks_scan_cardinality_witness :
    (ScanState.mk [] [⟨"https://a.example", "", none, none⟩] {WState.done}).results.length
      = [(⟨"https://a.example", "", none, none⟩ : Instance)].length ∧
    ((ScanState.mk [] [⟨"https://a.example", "", none, none⟩]
        {WState.done}).results : Multiset Instance)
      = ([(⟨"https://a.example", "", none, none⟩ : Instance)].map id
          : Multiset Instance) := by
  apply getChecks_scan_cardinality id
    [⟨"https://a.example", "", none, none⟩] 1 (le_refl 1)
  · refine Relation.ReflTransGen.head
      (ScanStep.pop ⟨"https://a.example", "", none, none⟩ [] [] 0) ?_
    refine Relation.ReflTransGen.head
      (ScanStep.push ⟨"https://a.example", "", none, none⟩ [] [] 0) ?_
    exact Relation.ReflTransGen.single
      (ScanStep.finish [⟨"https://a.example", "", none, none⟩] 0)
  · intro w hw
    simp at hw
    exact hw

/-- C9 (amended: the code does not clamp the worker count): the scan starts
exactly `limit` idle workers — no more and no fewer at any point of the
execution; an idle worker that observes the empty queue exits at once
without touching queue or results; and when `limit` exceeds the number of
endpoints the terminal results are still exactly the N probes, so the extra
workers did not affect the result. -/
theorem getChecks_worker_count (probe : Instance → Instance)
    (endpoints : List Instance) (limit : Nat) (hl : 1 ≤ limit) :
    (scanInit endpoints limit).workers = Multiset.replicate limit WState.idle ∧
    (scanInit endpoints limit).workers.card = limit ∧
    (∀ s, ScanReach probe (scanInit endpoints limit) s → s.workers.card = limit) ∧
    (∀ res ws, ScanStep probe ⟨[], res, WState.idle ::ₘ ws⟩
      ⟨[], res, WState.done ::ₘ ws⟩) ∧
    (∀ s, ScanReach probe (scanInit endpoints limit) s → AllDone s.workers →
      endpoints.length < limit → s.results.length = endpoints.length) := by
  refine ⟨rfl, by simp [scanInit], ?_, ?_, ?_⟩
  · intro s hreach
    rw [scanReach_card probe _ s hreach]
    simp [scanInit]
  · intro res ws
    exact ScanStep.finish res ws
  · intro s hreach hdone _
    exact (scan_terminal_results probe endpoints limit hl s hreach hdone).2

/-- Counterexample to C9 as stated: the code does not clamp the worker count
to at least 1.  With `concurrencyLimit = 0` (e.g. `CONCURRENCY_LIMIT="0"`)
zero workers start — not `max 1 0 = 1` — and the initial state is already
terminal (`Promise.all([])` resolves) with zero results for one endpoint. -/
theorem getChecks_worker_count_counterexample :
    (scanInit [⟨"https://a.example", "", none, none⟩] 0).workers.card = 0 ∧
    (0 : Nat) ≠ max 1 0 ∧
    AllDone (scanInit [⟨"https://a.example", "", none, none⟩] 0).workers ∧
    (scanInit [⟨"https://a.example", "", none, none⟩] 0).results.length = 0 ∧
    [(⟨"https://a.example", "", none, none⟩ : Instance)].length = 1 := by
  refine ⟨by simp [scanInit], by decide, ?_, rfl, rfl⟩
  intro w hw
  simp [scanInit] at hw

/-- Witness for C9 (amended): two workers over the one-element queue `[e]`;
the second worker finds the queue empty, exits immediately, and the
terminal results still have length 1. -/
theorem getChecks_worker_count_witness :
    (scanInit [⟨"https://a.example", "", none, none⟩] 2).workers
      = Multiset.replicate 2 WState.idle ∧
    (scanInit [⟨"https://a.example", "", none, none⟩] 2).workers.card = 2 ∧
    (ScanState.mk [] [⟨"https://a.example", "", none, none⟩]
      (WState.done ::ₘ WState.done ::ₘ 0)).results.length
      = [(⟨"https://a.example", "", none, none⟩ : Instance)].length := by
  have h := getChecks_worker_count id
    [⟨"https://a.example", "", none, none⟩] 2 (by omega)
  refine ⟨h.1, h.2.1, ?_⟩
  apply h.2.2.2.2
  · refine Relation.ReflTransGen.head
      (ScanStep.pop ⟨"https://a.example", "", none, none⟩ [] []
        (WState.idle ::ₘ 0)) ?_
    refine Relation.ReflTransGen.head
      (ScanStep.push ⟨"https://a.example", "", none, none⟩ [] []
        (WState.idle ::ₘ 0)) ?_
    refine Relation.ReflTransGen.head
      (ScanStep.finish [⟨"https://a.example", "", none, none⟩]
        (WState.idle ::ₘ 0)) ?_
    have hsw : (WState.done ::ₘ WState.idle ::ₘ 0)
        = (WState.idle ::ₘ WState.done ::ₘ 0) := Multiset.cons_swap _ _ _
    rw [show (ScanState.mk [] [(⟨"https://a.example", "", none, none⟩ : Instance)]
        (WState.done ::ₘ WState.idle ::ₘ 0))
        = ScanState.mk [] [⟨"https://a.example", "", none, none⟩]
          (WState.idle ::ₘ WState.done ::ₘ 0) from by rw [hsw]]
    exact Relation.ReflTransGen.single
      (ScanStep.finish [⟨"https://a.example", "", none, none⟩]
        (WState.done ::ₘ 0))
  · intro w hw
    simp at hw
    exact hw
  · simp

/-! ## The `/random` route (src/index.ts 308–313)

`const up = (await getChecks(env)).filter(i => i.status === "up");
return c.json(up[Math.floor(Math.random() * up.length)]);`
`Math.random()` is modelled as a rational `r ∈ [0, 1)`; an out-of-range
index on a JS array is `undefined`, modelled as `none`. -/

/-- The up-filter used by `/up` and `/random`. -/
def upFilter (checks : List Instance) : List Instance :=
  checks.filter (fun i => i.status == "up")

/-- Model of `up[Math.floor(Math.random() * up.length)]`. -/
def randomPick (up : List Instance) (r : Rat) : Option Instance :=
  up[(Int.floor (r * up.length)).toNat]?

/-- The `/random` route body: filter the checked list to `up`, sample. -/
def randomRoute (checks : List Instance) (r : Rat) : Option Instance :=
  randomPick (upFilter checks) r

/-- C10: with no endpoint up, the route indexes the empty filtered array at
0 and yields `undefined` (`none`) — no error is raised; with at least one
endpoint up and `r ∈ [0, 1)`, it yields some element of the filtered
list. -/
theorem randomRoute_empty_or_member (checks : List Instance) (r : Rat) :
    ((∀ i ∈ checks, i.status ≠ "up") →
      upFilter checks = [] ∧ (Int.floor (r * (0 : Nat))).toNat = 0 ∧
      randomRoute checks r = none) ∧
    (0 ≤ r → r < 1 → (∃ i ∈ checks, i.status = "up") →
      ∃ x ∈ upFilter checks, randomRoute checks r = some x) := by
  constructor
  · intro hnone
    have hf : upFilter checks = [] := by
      rw [upFilter, List.filter_eq_nil_iff]
      intro a ha
      simp [hnone a ha]
    refine ⟨hf, by simp, ?_⟩
    simp [randomRoute, randomPick, hf]
  · rintro hr0 hr1 ⟨i, hi, hup⟩
    have hmem : i ∈ upFilter checks := List.mem_filter.mpr ⟨hi, by simp [hup]⟩
    have hlen : 0 < (upFilter checks).length :=
      List.length_pos.mpr (List.ne_nil_of_mem hmem)
    have hnn : (0 : Rat) ≤ r * (upFilter checks).length :=
      mul_nonneg hr0 (by positivity)
    have hlt : r * (upFilter checks).length < (upFilter checks).length := by
      have h := mul_lt_mul_of_pos_right hr1
        (by exact_mod_cast hlen : (0 : Rat) < (upFilter checks).length)
      simpa using h
    have hfl : Int.floor (r * ((upFilter checks).length : Rat))
        < ((upFilter checks).length : Int) := by
      rw [Int.floor_lt]
      push_cast
      exact hlt
    have hfl0 : 0 ≤ Int.floor (r * ((upFilter checks).length : Rat)) :=
      Int.floor_nonneg.mpr hnn
    have hidx : (Int.floor (r * ((upFilter checks).length : Rat))).toNat
        < (upFilter checks).length := by
      omega
    refine ⟨(upFilter checks)[(Int.floor (r * ((upFilter checks).length : Rat))).toNat],
      List.getElem_mem hidx, ?_⟩
    simp [randomRoute, randomPick, List.getElem?_eq_getElem hidx]

/-- Witness for C10: an all-down list yields `none`; a list with one up
endpoint yields some member of the filtered list, at `r = 1/2`. -/
theorem randomRoute_empty_or_member_witness :
    (upFilter [⟨"https://d.example", "down", none, none⟩] = [] ∧
      (Int.floor ((1 / 2 : Rat) * (0 : Nat))).toNat = 0 ∧
      randomRoute [⟨"https://d.example", "down", none, none⟩] (1 / 2) = none) ∧
    (∃ x ∈ upFilter [(⟨"https://u.example", "up", none, none⟩ : Instance),
        ⟨"https://d.example", "down", none, none⟩],
      randomRoute [(⟨"https://u.example", "up", none, none⟩ : Instance),
        ⟨"https://d.example", "down", none, none⟩] (1 / 2) = some x) := by
  constructor
  · apply (randomRoute_empty_or_member
      [⟨"https://d.example", "down", none, none⟩] (1 / 2)).1
    intro i hi
    simp at hi
    rw [hi]
    decide
  · apply (randomRoute_empty_or_member
      [(⟨"https://u.example", "up", none, none⟩ : Instance),
        ⟨"https://d.example", "down", none, none⟩] (1 / 2)).2
    · norm_num
    · norm_num
    · exact ⟨⟨"https://u.example", "up", none, none⟩, by simp, rfl⟩

/-- Witness for C7 at a concrete input: a 404 final response gives
`error (404)`, and that status is indeed of the third shape. -/
theorem checkInstance_total_status_witness :
    (checkInstance ⟨"https://a.example", "", none, none⟩ none 2000
      (FetchOutcome.resp 404) (FetchOutcome.resp 0)).1.status = "up" ∨
    (checkInstance ⟨"https://a.example", "", none, none⟩ none 2000
      (FetchOutcome.resp 404) (FetchOutcome.resp 0)).1.status = "down" ∨
    (∃ c, finalOutcome (FetchOutcome.resp 404) (FetchOutcome.resp 0)
        = FetchOutcome.resp c ∧
      (checkInstance ⟨"https://a.example", "", none, none⟩ none 2000
        (FetchOutcome.resp 404) (FetchOutcome.resp 0)).1.status
        = "error (" ++ toString c ++ ")") :=
  (checkInstance_total_status ⟨"https://a.example", "", none, none⟩ none 2000
    (FetchOutcome.resp 404) (FetchOutcome.resp 0)).1

end Biblio
